import Mathlib

/-!
Verification of the VinceRAG backend core: a shallow embedding of the
chunk store (`app/services/vector_service.py`), the RAG query pipeline
(`app/services/rag_service.py`) and the chunk splitter offset assignment
(`app/services/document_processor.py`), together with proofs of the
specification's claims about them.

Python strings are modelled as Lean `String`s and all string-processing
primitives (`strip`, `lower`, `split`, slicing, `find`, `in`) are re-implemented
on the underlying character lists so that they are fully executable and
kernel-reducible.  Python floats are modelled as `ℚ`.  Python dicts with a
known key set are modelled as structures, with `Option` fields for keys that
may be absent.  Async I/O (embedding provider, vector index, SQL commit, LLM)
is modelled by explicit environments of oracles, and exceptions by
`Except String` carrying the exact message the code builds.
-/

/-! ### Python string primitives -/

/-- Python `str.strip()`: remove leading and trailing whitespace. -/
def pyStrip (s : String) : String :=
  ⟨((s.data.dropWhile Char.isWhitespace).reverse.dropWhile Char.isWhitespace).reverse⟩

/-- Python `str.lower()` (ASCII model). -/
def pyLower (s : String) : String := ⟨s.data.map Char.toLower⟩

/-- Python slicing `s[:n]` (by characters). -/
def pySlice (s : String) (n : Nat) : String := ⟨s.data.take n⟩

/-- Python slicing `l[-n:]` on lists. -/
def pyTakeLast {α : Type} (n : Nat) (l : List α) : List α := l.drop (l.length - n)

/-- Helper for `pySplitWs`: accumulate the current word (reversed) while
scanning the characters. -/
def pyWordsAux : List Char → List Char → List String
  | [], acc => if acc.isEmpty then [] else [⟨acc.reverse⟩]
  | ch :: rest, acc =>
    if ch.isWhitespace then
      if acc.isEmpty then pyWordsAux rest [] else ⟨acc.reverse⟩ :: pyWordsAux rest []
    else pyWordsAux rest (ch :: acc)

/-- Python `str.split()` with no argument: split on whitespace runs,
discarding empty pieces. -/
def pySplitWs (s : String) : List String := pyWordsAux s.data []

/-- Python `sep.join(parts)`. -/
def pyJoin (sep : String) : List String → String
  | [] => ""
  | x :: xs => xs.foldl (fun acc y => acc ++ sep ++ y) x

/-- Does `pat` occur in `text` starting at character index `i`?  Model of the
comparison Python's `str.find` performs at one candidate position. -/
def matchesAt (text pat : List Char) (i : Nat) : Bool :=
  (text.drop i).take pat.length == pat

/-- Python `needle in hay` on strings: substring containment. -/
def strContains (hay needle : String) : Bool :=
  (List.range (hay.length + 1)).any (fun i => matchesAt hay.data needle.data i)

/-- Python `text.find(pat, start)`: the least index `i ≥ start` at which `pat`
occurs in `text`, `none` when there is no occurrence (Python returns `-1`). -/
def pyFind (text pat : String) (start : Nat) : Option Nat :=
  ((List.range (text.length + 1)).filter
    (fun i => decide (start ≤ i) && matchesAt text.data pat.data i)).head?

/-! ### Chunk splitter offset assignment
(`DocumentProcessor._create_chunks`, `document_processor.py`)

The recursive window splitter itself is the external
`RecursiveCharacterTextSplitter` library; `_create_chunks` receives its output
list of window strings and assigns each window `start_char`/`end_char` offsets
by scanning forward in the original text, which is the part embedded here. -/

/-- One element of `_create_chunks`' output list. -/
structure ChunkData where
  chunk_index : Nat
  content : String
  start_char : Nat
  end_char : Nat
  token_count : Nat
deriving DecidableEq, Repr

/-- The position-assignment loop of `_create_chunks`: for each window, look
for it from `curPos` on (`text.find(chunk_text, current_pos)`), fall back to
`curPos` if not found, and continue from the computed end position.  Token
count is `len(chunk_text) // 4`. -/
def assignChunkPositions (text : String) : List String → Nat → Nat → List ChunkData
  | [], _, _ => []
  | c :: rest, i, curPos =>
    let startPos := (pyFind text c curPos).getD curPos
    let endPos := startPos + c.length
    ⟨i, c, startPos, endPos, c.length / 4⟩ :: assignChunkPositions text rest (i + 1) endPos

/-- Model of `DocumentProcessor._create_chunks`, given the splitter's window list:
reject empty/whitespace-only text, otherwise assign offsets. -/
def createChunks (text : String) (splitterOutput : List String) :
    Except String (List ChunkData) :=
  if pyStrip text = "" then .error "No text content to chunk"
  else .ok (assignChunkPositions text splitterOutput 0 0)

/-! ### Ranker (`RAGQueryService.rank_results`, `rag_service.py`) -/

/-- The metadata fields of a retrieval candidate that `rank_results` reads.
`created_at` matters only by presence; `document_type` and `title` by value. -/
structure RankMeta where
  created_at : Option String
  document_type : Option String
  title : Option String
deriving DecidableEq, Repr

/-- A retrieval result dict as passed through ranking: `content`,
`similarity`, `metadata`, chunk/document provenance, and the
`enhanced_score` key that ranking adds. -/
structure RankCandidate where
  content : String
  similarity : Option ℚ
  metadata : RankMeta
  chunk_id : Option Int
  document_id : Option Int
  chunk_index : Option Int
  enhanced_score : Option ℚ
deriving DecidableEq, Repr

/-- Model of `any(word in title_lower for word in query_lower.split())`. -/
def titleMatches (query title : String) : Bool :=
  (pySplitWs (pyLower query)).any (fun w => strContains (pyLower title) w)

/-- The enhanced score `rank_results` computes for one candidate: raw
similarity (`result.get("similarity", 0.0)`), boosted ×1.1 when
`boost_recent` and a `created_at` is present, ×1.2 when the candidate's
`document_type` equals a truthy `boost_document_type`, and ×1.15 when any
query word occurs in the title. -/
def enhancedScore (query : String) (boostRecent : Bool)
    (boostDocType : Option String) (r : RankCandidate) : ℚ :=
  let base := r.similarity.getD 0
  let s1 := if boostRecent && r.metadata.created_at.isSome then base * (11/10) else base
  let s2 := match boostDocType with
    | some t => if t ≠ "" && r.metadata.document_type == some t then s1 * (6/5) else s1
    | none => s1
  match r.metadata.title with
  | some title => if titleMatches query title then s2 * (23/20) else s2
  | none => s2

/-- Set the candidate's `enhanced_score` key (`result["enhanced_score"] = …`). -/
def annotateResult (query : String) (boostRecent : Bool)
    (boostDocType : Option String) (r : RankCandidate) : RankCandidate :=
  { r with enhanced_score := some (enhancedScore query boostRecent boostDocType r) }

/-- The comparator of `sorted(results, key=lambda x: x.get("enhanced_score", 0),
reverse=True)`: a stable descending sort by enhanced score. -/
def rankLe (a b : RankCandidate) : Bool :=
  decide (b.enhanced_score.getD 0 ≤ a.enhanced_score.getD 0)

/-- Model of `RAGQueryService.rank_results` (with its defaults
`boost_recent=True`, `boost_document_type=None` made explicit): annotate every
candidate with its enhanced score, then re-sort descending by it.  Python's
`sorted` is a stable sort, modelled by `List.mergeSort`. -/
def rankResults (results : List RankCandidate) (query : String)
    (boostRecent : Bool) (boostDocType : Option String) : List RankCandidate :=
  if results.isEmpty then results
  else
    ((results.map (annotateResult query boostRecent boostDocType)).mergeSort rankLe)

/-! ### Query optimizer (`RAGQueryService.optimize_query`, `rag_service.py`) -/

/-- One conversation turn (`{"role": …, "content": …}`). -/
structure ChatMsg where
  role : String
  content : String
deriving DecidableEq, Repr

/-- The user turns among the last three history messages
(`[msg["content"] for msg in chat_history[-3:] if msg["role"] == "user"]`). -/
def recentUserContext (chatHistory : List ChatMsg) : List String :=
  ((pyTakeLast 3 chatHistory).filter (fun m => m.role == "user")).map (·.content)

/-- Model of `RAGQueryService.optimize_query`: start from the stripped query; when
history is present and the last three messages contain user turns whose
lowercased space-joined concatenation is non-empty, and the query has at most
two words, append the first 100 characters of that concatenation to the
*original* query. -/
def optimizeQuery (query : String) (chatHistory : List ChatMsg) : String :=
  let optimized := pyStrip query
  if chatHistory.length > 0 then
    let recentContext := recentUserContext chatHistory
    if recentContext.isEmpty then optimized
    else
      let contextTerms := pyLower (pyJoin " " recentContext)
      if decide ((pySplitWs query).length ≤ 2) && decide (contextTerms.length > 0) then
        query ++ " " ++ pySlice contextTerms 100
      else optimized
  else optimized

/-! ### Query result payloads (`RAGQueryService.query` return dicts) -/

/-- One source-citation entry built for the response. -/
structure SourceInfo where
  chunk_id : Option Int
  document_id : Option Int
  chunk_index : Option Int
  similarity : ℚ
  enhanced_score : ℚ
  content : String
deriving DecidableEq, Repr

/-- The response dict of `RAGQueryService.query`.  The three shapes the code
returns (no-results, fresh success, cache hit) use different key subsets;
keys absent from a shape are `none`.  `processing_time` and `from_cache` are
the two volatile keys popped before caching. -/
structure QueryResult where
  answer : String
  sources : List SourceInfo
  confidence : ℚ
  processing_time : Option ℚ
  retrieved_documents : Nat
  suggestions : Option (List String)
  alternative_queries : Option (List String)
  tips : Option (List String)
  query_optimized : Option Bool
  original_query : Option String
  from_cache : Option Bool
  performance_warning : Option String
deriving DecidableEq, Repr

/-! ### Query cache (`QueryCache`, `rag_service.py`)

The key is `md5(f"{query}:{document_id}:{similarity_threshold}")`; since the
encoded triple is recovered uniquely from the colon-joined string (the two
trailing components contain no colon), the hash is modelled as the joined
string itself.  Wall-clock instants are abstract rationals; the TTL is held in
the same unit.  The Python dict is modelled as an association list in
insertion order with unique keys maintained by the operations. -/

/-- Rendering of `str(document_id)` for the key, with Python's `None` spelling. -/
def optIntStr : Option Int → String
  | none => "None"
  | some n => toString n

/-- Model of `QueryCache._generate_key` (md5 modelled as the identity on the
colon-joined, injectively encoded triple). -/
def cacheKey (query : String) (documentId : Option Int) (threshold : ℚ) : String :=
  query ++ ":" ++ optIntStr documentId ++ ":" ++ toString threshold

/-- The in-memory query cache: entries `(key, payload, insertion time)`,
plus `max_size` and `ttl`. -/
structure Cache where
  entries : List (String × QueryResult × ℚ)
  maxSize : Nat
  ttl : ℚ
deriving Repr

/-- Model of `QueryCache.get`: on a present, unexpired key return the payload; evict
the entry lazily when it has expired.  Returns the possibly-updated cache. -/
def cacheGet (c : Cache) (query : String) (documentId : Option Int)
    (threshold now : ℚ) : Option QueryResult × Cache :=
  let key := cacheKey query documentId threshold
  match c.entries.find? (fun e => e.1 == key) with
  | none => (none, c)
  | some (_, r, ts) =>
    if now - ts < c.ttl then (some r, c)
    else (none, { c with entries := c.entries.filter (fun e => !(e.1 == key)) })

/-- Evict the entry with the smallest timestamp (first such in insertion
order), as `min(self.cache.keys(), key=lambda k: self.cache[k][1])`. -/
def evictOldest (es : List (String × QueryResult × ℚ)) :
    List (String × QueryResult × ℚ) :=
  match (es.map (fun e => e.2.2)).min? with
  | none => es
  | some m => es.eraseP (fun e => e.2.2 == m)

/-- Dict assignment `self.cache[key] = (result, now)`: overwrite in place when
the key exists, append otherwise. -/
def dictInsert (es : List (String × QueryResult × ℚ)) (key : String)
    (r : QueryResult) (now : ℚ) : List (String × QueryResult × ℚ) :=
  if es.any (fun e => e.1 == key) then
    es.map (fun e => if e.1 == key then (key, r, now) else e)
  else es ++ [(key, r, now)]

/-- Model of `QueryCache.set`: evict the oldest entry when at capacity, then insert. -/
def cacheSet (c : Cache) (query : String) (documentId : Option Int)
    (threshold : ℚ) (r : QueryResult) (now : ℚ) : Cache :=
  let key := cacheKey query documentId threshold
  let es := if c.entries.length ≥ c.maxSize then evictOldest c.entries else c.entries
  { c with entries := dictInsert es key r now }

/-! ### RAG query pipeline (`RAGQueryService.query`, `rag_service.py`) -/

/-- A chunk as returned by the retriever (`CustomRetriever` →
`VectorService.similarity_search` result dicts, flattened). -/
structure RetrievedDoc where
  content : String
  similarity : ℚ
  chunk_id : Option Int
  document_id : Option Int
  chunk_index : Option Int
  created_at : Option String
  document_type : Option String
  title : Option String
deriving DecidableEq, Repr

/-- The oracles the query pipeline calls out to: the retriever (which can
raise, carrying the underlying error text) and the LLM, a deterministic
function of the assembled context, the history and the question. -/
structure RagEnv where
  retrieve : String → Option Int → ℚ → Except String (List RetrievedDoc)
  llm : String → List ChatMsg → String → String

/-- What one `query` call produced: its returned-or-raised value, the cache
it left behind, and whether the LLM was invoked. -/
structure RagOutcome where
  result : Except String QueryResult
  cache : Cache
  llmCalled : Bool

/-- Model of `RAGQueryService.analyze_query_complexity`: word count, a complexity
bucket, and keyword-triggered question types. -/
def analyzeQueryComplexity (question : String) :
    String × Nat × List String :=
  let wordCount := (pySplitWs question).length
  let complexity := if wordCount > 20 then "complex"
    else if wordCount > 10 then "medium" else "simple"
  let ql := pyLower question
  let types :=
    (if ["what", "who", "where", "when"].any (fun w => strContains ql w)
      then ["factual"] else []) ++
    (if ["how", "why"].any (fun w => strContains ql w)
      then ["explanatory"] else []) ++
    (if ["compare", "difference", "similar"].any (fun w => strContains ql w)
      then ["comparative"] else []) ++
    (if ["summarize", "overview", "summary"].any (fun w => strContains ql w)
      then ["summary"] else [])
  (complexity, wordCount, types)

/-- Model of `RAGQueryService.get_query_suggestions`: five base suggestions, prefixed
by five document-specific ones when a (truthy) document id is given, truncated
to `limit`. -/
def getQuerySuggestions (documentId : Option Int) (limit : Nat) : List String :=
  let baseSuggestions :=
    ["What is the main topic of the documents?",
     "Can you summarize the key points?",
     "What are the most important findings?",
     "Are there any recommendations mentioned?",
     "What conclusions can be drawn from the content?"]
  let allSuggestions := match documentId with
    | some d =>
      if d ≠ 0 then
        ["What are the key insights from document " ++ toString d ++ "?",
         "Can you explain the main concepts in document " ++ toString d ++ "?",
         "What are the important details in document " ++ toString d ++ "?",
         "How does document " ++ toString d ++ " relate to other documents?",
         "What questions does document " ++ toString d ++ " answer?"] ++
        baseSuggestions
      else baseSuggestions
    | none => baseSuggestions
  allSuggestions.take limit

/-- The structured payload `handle_no_results` builds. -/
structure NoResultsResponse where
  message : String
  suggestions : List String
  alternative_queries : List String
  tips : List String
deriving DecidableEq, Repr

/-- Model of `RAGQueryService.handle_no_results`: suggestions keyed off the query
analysis, general alternative queries, and fixed tips. -/
def handleNoResults (query : String) (documentId : Option Int) :
    NoResultsResponse :=
  let analysis := analyzeQueryComplexity query
  let types := analysis.2.2
  let suggestions :=
    (if types.contains "factual" then
      ["Try rephrasing your question with different keywords",
       "Ask about specific topics or concepts",
       "Use more general terms if your query is very specific"] else []) ++
    (if types.contains "explanatory" then
      ["Break down complex questions into simpler parts",
       "Ask about specific aspects of the topic",
       "Try asking 'what', 'where', or 'when' questions first"] else []) ++
    (if analysis.1 = "complex" then
      ["Try simplifying your question",
       "Focus on one aspect at a time",
       "Use fewer technical terms"] else [])
  { message := "I couldn't find relevant information for your query."
    suggestions := suggestions.take 3
    alternative_queries := getQuerySuggestions documentId 3
    tips :=
      ["Make sure your documents contain information related to your question",
       "Try using different keywords or synonyms",
       "Check if your question is too specific or too broad"] }

/-- The no-results response dict `query` returns when retrieval produced
nothing above the threshold. -/
def noResultsResult (question : String) (documentId : Option Int)
    (tStart tEnd : ℚ) : QueryResult :=
  let nr := handleNoResults question documentId
  { answer := nr.message
    sources := []
    confidence := 0
    processing_time := some (tEnd - tStart)
    retrieved_documents := 0
    suggestions := some nr.suggestions
    alternative_queries := some nr.alternative_queries
    tips := some nr.tips
    query_optimized := none
    original_query := none
    from_cache := none
    performance_warning := none }

/-- The per-document result dict `query` builds from a retrieved chunk before
ranking (`metadata` carries the ranking-relevant fields). -/
def docToCandidate (d : RetrievedDoc) : RankCandidate :=
  { content := d.content
    similarity := some d.similarity
    metadata := ⟨d.created_at, d.document_type, d.title⟩
    chunk_id := d.chunk_id
    document_id := d.document_id
    chunk_index := d.chunk_index
    enhanced_score := none }

/-- The context block: one `Document i (Similarity: s):\n<content>` paragraph
per ranked result.  (Python renders the similarity with two decimals; the
exact rational rendering is used here.) -/
def formatContext (results : List RankCandidate) : String :=
  pyJoin "\n\n" (results.enum.map (fun p =>
    "Document " ++ toString (p.1 + 1) ++ " (Similarity: " ++
      toString (p.2.similarity.getD 0) ++ "):\n" ++ p.2.content))

/-- Truncate a source excerpt: `content[:500] + "..." if len > 500`. -/
def truncContent (s : String) : String :=
  if s.length > 500 then pySlice s 500 ++ "..." else s

/-- One `source_info` dict. -/
def mkSource (r : RankCandidate) : SourceInfo :=
  { chunk_id := r.chunk_id
    document_id := r.document_id
    chunk_index := r.chunk_index
    similarity := r.similarity.getD 0
    enhanced_score := r.enhanced_score.getD (r.similarity.getD 0)
    content := truncContent r.content }

/-- Mean of a list of rationals (0 for the empty list, matching the guarded
use sites). -/
def listAvg (l : List ℚ) : ℚ := l.sum / (l.length : ℚ)

/-- The confidence score: mean enhanced score (or mean raw similarity when
ranking is disabled) over the sources, clamped to 1.0; 0.0 with no sources. -/
def confidenceOf (enableRank : Bool) (sources : List SourceInfo) : ℚ :=
  if sources.isEmpty then 0
  else
    let avg := if enableRank then listAvg (sources.map (·.enhanced_score))
      else listAvg (sources.map (·.similarity))
    min avg 1

/-- The fresh (non-cached) success result of `RAGQueryService.query`:
rank (old default boosts), assemble the context, invoke the LLM, extract
sources, compute the confidence, and attach the bookkeeping fields. -/
def ragSuccessResult (env : RagEnv) (question : String)
    (chatHistory : List ChatMsg) (optimizedQ : String)
    (docs : List RetrievedDoc) (enableRank : Bool) (tStart tEnd : ℚ) :
    QueryResult :=
  let results := docs.map docToCandidate
  let ranked := if enableRank then rankResults results question true none else results
  let context := formatContext ranked
  let answer := env.llm context chatHistory question
  let sources := ranked.map mkSource
  let confidence := confidenceOf enableRank sources
  let pt := tEnd - tStart
  { answer := answer
    sources := sources
    confidence := confidence
    processing_time := some pt
    retrieved_documents := sources.length
    suggestions := none
    alternative_queries := none
    tips := none
    query_optimized := some (decide (optimizedQ ≠ question))
    original_query := if optimizedQ ≠ question then some question else none
    from_cache := some false
    performance_warning := if pt > 5 then
      some "Query took longer than expected. Consider using more specific terms."
      else none }

/-- Model of `RAGQueryService.query`.  The cache is consulted and filled only when
`use_cache` holds and the history is empty; a cache hit is returned with
`from_cache`/`processing_time` refreshed; a retrieval failure raises
`RAGError`; zero retrieved documents produce the structured no-results
response (never cached, LLM not invoked); otherwise the success result is
built, cached (minus its two volatile keys, timestamped at completion time)
and returned.  `tStart`/`tEnd` are the wall-clock instants bracketing the
call. -/
def ragQuery (env : RagEnv) (cache : Cache) (question : String)
    (documentId : Option Int) (chatHistory : List ChatMsg)
    (simThreshold : ℚ) (enableOpt enableRank useCache : Bool)
    (tStart tEnd : ℚ) : RagOutcome :=
  let checkCache := useCache && chatHistory.isEmpty
  let looked := if checkCache then
      cacheGet cache question documentId simThreshold tStart
    else (none, cache)
  match looked.1 with
  | some r =>
    ⟨.ok { r with from_cache := some true, processing_time := some (tEnd - tStart) },
      looked.2, false⟩
  | none =>
    let cache1 := looked.2
    let optimizedQ := if enableOpt then optimizeQuery question chatHistory else question
    match env.retrieve optimizedQ documentId simThreshold with
    | .error e =>
      ⟨.error ("Query processing failed: Document retrieval failed: " ++ e),
        cache1, false⟩
    | .ok docs =>
      if docs.isEmpty then
        ⟨.ok (noResultsResult question documentId tStart tEnd), cache1, false⟩
      else
        let r := ragSuccessResult env question chatHistory optimizedQ docs
          enableRank tStart tEnd
        let cache2 := if checkCache then
            cacheSet cache1 question documentId simThreshold
              { r with processing_time := none, from_cache := none } tEnd
          else cache1
        ⟨.ok r, cache2, true⟩

/-! ### Chunk store (`VectorService`, `vector_service.py`)

The relational store is modelled as committed rows plus the pending rows of
the open transaction (`db.add` appends pending; `commit` makes pending
durable; `rollback` discards pending and never touches committed rows).  The
Chroma collection is a list of entries, written atomically per call.  The
embedding provider, snowflake id generator and the failure behaviour of the
external calls are an explicit environment. -/

/-- One input chunk dict as passed to `store_chunks`; `none` content models a
missing `"content"` key, the other fields model `.get(…, default)` keys. -/
structure ChunkIn where
  content : Option String
  start_char : Option Int
  end_char : Option Int
  token_count : Option Int
deriving DecidableEq, Repr

/-- A relational `DocumentChunk` row. -/
structure DocumentChunk where
  id : Nat
  document_id : Int
  chunk_index : Nat
  vector_id : String
  content : String
  start_char : Int
  end_char : Int
  token_count : Int
deriving DecidableEq, Repr

/-- The metadata blob stored with each vector. -/
structure VectorMeta where
  document_id : Int
  chunk_id : Nat
  chunk_index : Nat
  start_char : Int
  end_char : Int
  token_count : Int
deriving DecidableEq, Repr

/-- One vector-index entry (`collection.add` id/embedding/document/metadata). -/
structure VectorEntry where
  id : String
  embedding : List ℚ
  document : String
  metadata : VectorMeta
deriving DecidableEq, Repr

/-- The relational store: durable rows plus the open transaction's pending
rows. -/
structure SqlDb where
  committed : List DocumentChunk
  pending : List DocumentChunk
deriving DecidableEq, Repr

/-- Model of `await db.commit()`: pending rows become durable. -/
def SqlDb.commitNow (db : SqlDb) : SqlDb := ⟨db.committed ++ db.pending, []⟩

/-- Model of `await db.rollback()`: pending rows are discarded; rows committed earlier
stay in place. -/
def SqlDb.rollback (db : SqlDb) : SqlDb := ⟨db.committed, []⟩

/-- What a query over the session sees. -/
def SqlDb.view (db : SqlDb) : List DocumentChunk := db.committed ++ db.pending

/-- The vector index contents. -/
abbrev VectorStore := List VectorEntry

/-- External-call oracles for one `VectorService` operation: the embedding
provider, the id generator (the `i`-th `generate_id()` call of the
operation), and the error outcomes of the SQL commit and the vector-index
add/delete calls (`none` = success). -/
structure StoreEnv where
  embed : List String → Except String (List (List ℚ))
  genId : Nat → Nat
  commitError : Option String
  vectorAddError : Option String
  vectorDeleteError : Option String

/-- Observable side effects of one `store_chunks` call. -/
structure StoreTrace where
  embedCalls : List (List String)
  idsGenerated : Nat
  sqlCommitted : Bool
  vectorAddAttempted : Bool
deriving DecidableEq, Repr

/-- The validation loop of `store_chunks`: the error message of the first
chunk (counting from index `i`) with a missing `"content"` key or
empty/whitespace-only content, if any. -/
def firstInvalid : Nat → List ChunkIn → Option String
  | _, [] => none
  | i, c :: rest =>
    match c.content with
    | none => some ("Invalid chunk data at index " ++ toString i ++
        ": missing 'content' field")
    | some s =>
      if pyStrip s = "" then
        some ("Empty content in chunk at index " ++ toString i)
      else firstInvalid (i + 1) rest

/-- The `DocumentChunk` row built for input chunk `c` at position `i`. -/
def mkRow (env : StoreEnv) (documentId : Int) (i : Nat) (c : ChunkIn) :
    DocumentChunk :=
  let chunkId := env.genId i
  let content := c.content.getD ""
  { id := chunkId
    document_id := documentId
    chunk_index := i
    vector_id := toString chunkId
    content := content
    start_char := c.start_char.getD 0
    end_char := c.end_char.getD (content.length : Int)
    token_count := c.token_count.getD 0 }

/-- The vector-index entry built for input chunk `c` at position `i`. -/
def mkEntry (env : StoreEnv) (documentId : Int) (i : Nat) (c : ChunkIn)
    (emb : List ℚ) : VectorEntry :=
  let chunkId := env.genId i
  let content := c.content.getD ""
  { id := toString chunkId
    embedding := emb
    document := content
    metadata :=
      { document_id := documentId
        chunk_id := chunkId
        chunk_index := i
        start_char := c.start_char.getD 0
        end_char := c.end_char.getD (content.length : Int)
        token_count := c.token_count.getD 0 } }

/-- All rows of one `store_chunks` call (the loop zips chunks with the
returned embeddings). -/
def mkRows (env : StoreEnv) (documentId : Int) (chunks : List ChunkIn)
    (embs : List (List ℚ)) : List DocumentChunk :=
  (chunks.zip embs).enum.map (fun p => mkRow env documentId p.1 p.2.1)

/-- All vector entries of one `store_chunks` call. -/
def mkEntries (env : StoreEnv) (documentId : Int) (chunks : List ChunkIn)
    (embs : List (List ℚ)) : List VectorEntry :=
  (chunks.zip embs).enum.map (fun p => mkEntry env documentId p.1 p.2.1 p.2.2)

/-- Model of `VectorService.store_chunks`: early-return `[]` on an empty batch;
validate every chunk; embed all contents (abort on failure, rolling back);
build and `db.add` all rows; commit; only then write the vectors, and on a
vector-write failure report the wrapped error while the committed rows stay
durable (the rollback in the handler only discards the now-empty pending
set). -/
def storeChunks (env : StoreEnv) (db : SqlDb) (vs : VectorStore)
    (documentId : Int) (chunks : List ChunkIn) :
    Except String (List DocumentChunk) × SqlDb × VectorStore × StoreTrace :=
  if chunks.isEmpty then (.ok [], db, vs, ⟨[], 0, false, false⟩)
  else
    match firstInvalid 0 chunks with
    | some msg => (.error msg, db, vs, ⟨[], 0, false, false⟩)
    | none =>
      let texts := chunks.map (fun c => c.content.getD "")
      match env.embed texts with
      | .error e =>
        (.error ("Chunk storage failed: Embedding generation failed: " ++ e),
          db.rollback, vs, ⟨[texts], 0, false, false⟩)
      | .ok embs =>
        let rows := mkRows env documentId chunks embs
        let dbPending : SqlDb := { db with pending := db.pending ++ rows }
        let n := (chunks.zip embs).length
        match env.commitError with
        | some e =>
          (.error ("Chunk storage failed: " ++ e), dbPending.rollback, vs,
            ⟨[texts], n, false, false⟩)
        | none =>
          let dbC := dbPending.commitNow
          match env.vectorAddError with
          | some e =>
            (.error ("Chunk storage failed: Failed to add documents: " ++ e),
              dbC.rollback, vs, ⟨[texts], n, true, true⟩)
          | none =>
            (.ok rows, dbC, vs ++ mkEntries env documentId chunks embs,
              ⟨[texts], n, true, true⟩)

/-- The observable write events of one `delete_chunks` call, in order. -/
inductive DelEvent where
  | vectorDelete (ids : List String)
  | sqlDelete (documentId : Int)
  | sqlCommit
deriving DecidableEq, Repr

/-- Model of `VectorService.delete_chunks`: read the document's chunk rows; no-op when
there are none; otherwise delete the corresponding vector entries first, then
delete the rows and commit; roll back on failure. -/
def deleteChunks (env : StoreEnv) (db : SqlDb) (vs : VectorStore)
    (documentId : Int) :
    Except String Unit × SqlDb × VectorStore × List DelEvent :=
  let rows := db.view.filter (fun r => r.document_id == documentId)
  if rows.isEmpty then (.ok (), db, vs, [])
  else
    let ids := rows.map (·.vector_id)
    match env.vectorDeleteError with
    | some e =>
      (.error ("Chunk deletion failed: Failed to delete documents: " ++ e),
        db.rollback, vs, [])
    | none =>
      let vs' := vs.filter (fun v => !(ids.contains v.id))
      match env.commitError with
      | some e =>
        (.error ("Chunk deletion failed: " ++ e), db.rollback, vs',
          [.vectorDelete ids, .sqlDelete documentId])
      | none =>
        (.ok (), ⟨db.view.filter (fun r => !(r.document_id == documentId)), []⟩,
          vs', [.vectorDelete ids, .sqlDelete documentId, .sqlCommit])

/-- Whether `store_chunks`' validation loop rejects this chunk: missing
`"content"` key or empty/whitespace-only content. -/
def chunkInvalid (c : ChunkIn) : Bool :=
  match c.content with
  | none => true
  | some s => pyStrip s == ""

/-! ### Witness fixtures: tiny concrete instantiations used to evaluate the
hypotheses of the claim theorems at concrete inputs. -/

/-- A store environment whose external calls all succeed and whose embedding
provider returns one empty vector per text. -/
def envAllOk : StoreEnv :=
  { embed := fun texts => .ok (texts.map (fun _ => []))
    genId := fun i => 100 + i
    commitError := none
    vectorAddError := none
    vectorDeleteError := none }

/-- A store environment whose vector-index `add` fails. -/
def envVecAddFail : StoreEnv :=
  { envAllOk with vectorAddError := some "index down" }

/-- A store environment whose embedding call fails. -/
def envEmbedFail : StoreEnv :=
  { envAllOk with embed := fun _ => .error "rate limited" }

/-- A valid one-chunk input batch. -/
def chunksOneOk : List ChunkIn := [⟨some "hello world", none, none, none⟩]

/-- A batch whose second chunk has whitespace-only content. -/
def chunksOneBad : List ChunkIn :=
  [⟨some "hello world", none, none, none⟩, ⟨some "   ", none, none, none⟩]

/-- An empty relational store. -/
def dbEmpty : SqlDb := ⟨[], []⟩

/-- A one-document relational store: one committed row for document 7. -/
def dbOneDoc : SqlDb := ⟨[⟨100, 7, 0, "100", "hello world", 0, 11, 0⟩], []⟩

/-- The vector entry matching `dbOneDoc`'s single row. -/
def vsOneDoc : VectorStore :=
  [⟨"100", [], "hello world", ⟨7, 100, 0, 0, 11, 0⟩⟩]

/-- A retrieved chunk used by the query-pipeline witnesses. -/
def docW : RetrievedDoc :=
  { content := "chunk text"
    similarity := 1
    chunk_id := some 1
    document_id := some 7
    chunk_index := some 0
    created_at := none
    document_type := none
    title := none }

/-- A query-pipeline environment whose retriever always returns `docW` and
whose LLM always answers `"ans"`. -/
def envHit : RagEnv :=
  { retrieve := fun _ _ _ => .ok [docW]
    llm := fun _ _ _ => "ans" }

/-- A query-pipeline environment whose retriever finds nothing above the
threshold. -/
def envNoHits : RagEnv :=
  { retrieve := fun _ _ _ => .ok []
    llm := fun _ _ _ => "ans" }

/-- An empty query cache with the code's defaults (100 entries, TTL 30). -/
def cacheEmpty : Cache := ⟨[], 100, 30⟩

/-! ## Helper lemmas -/

theorem SqlDb.rollback_of_no_pending {db : SqlDb} (h : db.pending = []) :
    db.rollback = db := by
  cases db with
  | mk c p => simp only [SqlDb.rollback] at *; simp_all

theorem firstInvalid_eq_none_iff (i : Nat) (chunks : List ChunkIn) :
    firstInvalid i chunks = none ↔ ∀ c ∈ chunks, chunkInvalid c = false := by
  induction chunks generalizing i with
  | nil => simp [firstInvalid]
  | cons c rest ih =>
    cases hc : c.content with
    | none => simp [firstInvalid, hc, chunkInvalid]
    | some s =>
      by_cases hs : pyStrip s = ""
      · simp [firstInvalid, hc, hs, chunkInvalid]
      · simp [firstInvalid, hc, hs, chunkInvalid, ih]

theorem firstInvalid_isSome_of_invalid (i : Nat) (chunks : List ChunkIn)
    (h : ∃ c ∈ chunks, chunkInvalid c = true) :
    ∃ msg, firstInvalid i chunks = some msg := by
  cases hfi : firstInvalid i chunks with
  | some msg => exact ⟨msg, rfl⟩
  | none =>
    obtain ⟨c, hc, hinv⟩ := h
    have := (firstInvalid_eq_none_iff i chunks).mp hfi c hc
    rw [this] at hinv
    exact absurd hinv (by simp)

/-! ## Claims -/

/-- C10: calling the chunk store's `store` with an empty chunk list succeeds
with an empty result list, raises no validation error, generates no ids,
performs no embedding call, and writes to neither the relational store nor
the vector index. -/
theorem c10_store_empty_batch_noop (env : StoreEnv) (db : SqlDb)
    (vs : VectorStore) (documentId : Int) :
    storeChunks env db vs documentId [] =
      (.ok [], db, vs, ⟨[], 0, false, false⟩) := by
  simp [storeChunks]

/-- C2: whenever some input chunk is missing its content field or has
empty/whitespace-only content, or the embedding call fails, `store` fails
with an error and persists nothing: the relational store and the vector
index are exactly as before the call. -/
theorem c2_store_failure_persists_nothing (env : StoreEnv) (db : SqlDb)
    (vs : VectorStore) (documentId : Int) (chunks : List ChunkIn)
    (hpend : db.pending = [])
    (hfail : (∃ c ∈ chunks, chunkInvalid c = true) ∨
      (chunks ≠ [] ∧ ∃ e,
        env.embed (chunks.map (fun c => c.content.getD "")) = .error e)) :
    ∃ msg, (storeChunks env db vs documentId chunks).1 = .error msg ∧
      (storeChunks env db vs documentId chunks).2.1 = db ∧
      (storeChunks env db vs documentId chunks).2.2.1 = vs := by
  have hne : chunks ≠ [] := by
    rcases hfail with ⟨c, hc, _⟩ | ⟨hne, _⟩
    · intro h; subst h; simp at hc
    · exact hne
  have hemp : chunks.isEmpty = false := by
    simpa [List.isEmpty_eq_false] using hne
  cases hfi : firstInvalid 0 chunks with
  | some msg =>
    refine ⟨msg, ?_, ?_, ?_⟩ <;> simp [storeChunks, hemp, hfi]
  | none =>
    rcases hfail with hinv | ⟨_, e, hembed⟩
    · obtain ⟨msg, hmsg⟩ := firstInvalid_isSome_of_invalid 0 chunks hinv
      rw [hmsg] at hfi; exact absurd hfi (by simp)
    · refine ⟨"Chunk storage failed: Embedding generation failed: " ++ e, ?_, ?_, ?_⟩ <;>
        simp [storeChunks, hemp, hfi, hembed, SqlDb.rollback_of_no_pending hpend]

/-- Witness for C2 at a concrete input: a two-chunk batch whose second chunk
is whitespace-only is rejected wholesale and changes neither store. -/
theorem c2_store_failure_persists_nothing_witness :
    ∃ msg, (storeChunks envAllOk dbEmpty [] 7 chunksOneBad).1 = .error msg ∧
      (storeChunks envAllOk dbEmpty [] 7 chunksOneBad).2.1 = dbEmpty ∧
      (storeChunks envAllOk dbEmpty [] 7 chunksOneBad).2.2.1 = [] :=
  c2_store_failure_persists_nothing envAllOk dbEmpty [] 7 chunksOneBad rfl
    (Or.inl (by decide))

/-- C3: a successful `store` of `n` chunks for a document with no prior rows
records exactly the sequence indices `0, …, n-1`, in the order the chunks
were given (their contents line up one-to-one with the input batch). -/
theorem c3_store_success_contiguous_indices (env : StoreEnv) (db : SqlDb)
    (vs : VectorStore) (documentId : Int) (chunks : List ChunkIn)
    (embs : List (List ℚ))
    (hpend : db.pending = [])
    (hnone : ∀ r ∈ db.committed, r.document_id ≠ documentId)
    (hval : firstInvalid 0 chunks = none)
    (hembed : env.embed (chunks.map (fun c => c.content.getD "")) = .ok embs)
    (hlen : embs.length = chunks.length)
    (hcommit : env.commitError = none)
    (hvec : env.vectorAddError = none) :
    (storeChunks env db vs documentId chunks).1 =
        .ok (mkRows env documentId chunks embs) ∧
      (((storeChunks env db vs documentId chunks).2.1.view.filter
          (fun r => r.document_id == documentId)).map (·.chunk_index)) =
        List.range chunks.length ∧
      (((storeChunks env db vs documentId chunks).2.1.view.filter
          (fun r => r.document_id == documentId)).map (·.content)) =
        chunks.map (fun c => c.content.getD "") := by
  have hfilter_comm : db.committed.filter (fun r => r.document_id == documentId) = [] := by
    rw [List.filter_eq_nil_iff]
    intro r hr
    simpa using hnone r hr
  rcases hchunks : chunks with _ | ⟨c, rest⟩
  · subst hchunks
    have : embs = [] := by simpa using hlen
    subst this
    refine ⟨?_, ?_, ?_⟩ <;>
      simp [storeChunks, mkRows, SqlDb.view, hpend, hfilter_comm]
  · rw [← hchunks]
    have hemp : chunks.isEmpty = false := by
      rw [hchunks]; rfl
    have hout : storeChunks env db vs documentId chunks =
        (.ok (mkRows env documentId chunks embs),
          ⟨db.committed ++ mkRows env documentId chunks embs, []⟩,
          vs ++ mkEntries env documentId chunks embs,
          ⟨[chunks.map (fun c => c.content.getD "")], (chunks.zip embs).length,
            true, true⟩) := by
      simp [storeChunks, hemp, hval, hembed, hcommit, hvec, SqlDb.commitNow, hpend]
    have hrows_doc : ∀ r ∈ mkRows env documentId chunks embs,
        (r.document_id == documentId) = true := by
      intro r hr
      obtain ⟨p, _, hp⟩ := List.mem_map.mp hr
      rw [← hp]
      simp [mkRow]
    have hfilter_rows : (mkRows env documentId chunks embs).filter
        (fun r => r.document_id == documentId) = mkRows env documentId chunks embs :=
      List.filter_eq_self.mpr hrows_doc
    have hzip_len : (chunks.zip embs).length = chunks.length := by
      simp [List.length_zip, hlen]
    refine ⟨by rw [hout], ?_, ?_⟩
    · rw [hout]
      simp only [SqlDb.view, List.append_nil, List.filter_append, hfilter_comm,
        hfilter_rows, List.nil_append]
      have hidx : (mkRows env documentId chunks embs).map (·.chunk_index) =
          (chunks.zip embs).enum.map Prod.fst := by
        rw [mkRows, List.map_map]
        congr 1
      rw [hidx, List.enum_map_fst, hzip_len]
    · rw [hout]
      simp only [SqlDb.view, List.append_nil, List.filter_append, hfilter_comm,
        hfilter_rows, List.nil_append]
      have h1 : (mkRows env documentId chunks embs).map (·.content) =
          (chunks.zip embs).map (fun q => q.1.content.getD "") := by
        rw [mkRows, List.map_map]
        have hstep : ((chunks.zip embs).enum.map
              ((fun q => q.1.content.getD "") ∘ Prod.snd)) =
            ((chunks.zip embs).enum.map Prod.snd).map (fun q => q.1.content.getD "") := by
          rw [List.map_map]
        have := hstep.trans (by rw [List.enum_map_snd])
        exact (by congr 1 : ((chunks.zip embs).enum.map
            ((fun x => x.content) ∘ fun p => mkRow env documentId p.1 p.2.1)) =
          ((chunks.zip embs).enum.map
            ((fun q => q.1.content.getD "") ∘ Prod.snd))).trans this
      rw [h1]
      have h2 : (chunks.zip embs).map (fun q => q.1.content.getD "") =
          ((chunks.zip embs).map Prod.fst).map (fun c => c.content.getD "") := by
        simp [List.map_map]
      rw [h2, List.map_fst_zip _ _ (by rw [hlen])]

/-- Witness for C3 at a concrete input: storing one valid chunk into an empty
store records exactly index range `{0}` with the given content. -/
theorem c3_store_success_contiguous_indices_witness :
    (storeChunks envAllOk dbEmpty [] 7 chunksOneOk).1 =
        .ok (mkRows envAllOk 7 chunksOneOk [[]]) ∧
      (((storeChunks envAllOk dbEmpty [] 7 chunksOneOk).2.1.view.filter
          (fun r => r.document_id == 7)).map (·.chunk_index)) =
        List.range chunksOneOk.length ∧
      (((storeChunks envAllOk dbEmpty [] 7 chunksOneOk).2.1.view.filter
          (fun r => r.document_id == 7)).map (·.content)) =
        chunksOneOk.map (fun c => c.content.getD "") :=
  c3_store_success_contiguous_indices envAllOk dbEmpty [] 7 chunksOneOk [[]]
    rfl (by simp [dbEmpty]) (by decide) rfl rfl rfl rfl

theorem list_append_ne_of_take_ne {a b x y : List Char} {k : Nat}
    (ha : k ≤ a.length) (hb : k ≤ b.length) (hne : a.take k ≠ b.take k) :
    a ++ x ≠ b ++ y := by
  intro h
  apply hne
  have := congrArg (List.take k) h
  rwa [List.take_append_of_le_length ha, List.take_append_of_le_length hb] at this

theorem string_append_ne_of_take_ne (p q x y : String) (k : Nat)
    (hp : k ≤ p.data.length) (hq : k ≤ q.data.length)
    (hne : p.data.take k ≠ q.data.take k) : p ++ x ≠ q ++ y := by
  intro h
  have hd : (p ++ x).data = (q ++ y).data := congrArg String.data h
  rw [String.data_append, String.data_append] at hd
  exact list_append_ne_of_take_ne hp hq hne hd

/-- Every message the validation loop can produce has one of the two literal
shapes of `store_chunks`' validation errors. -/
theorem firstInvalid_msg_shape (chunks : List ChunkIn) (i : Nat) (msg : String)
    (h : firstInvalid i chunks = some msg) :
    (∃ j : Nat, msg = "Invalid chunk data at index " ++ toString j ++
        ": missing 'content' field") ∨
      (∃ j : Nat, msg = "Empty content in chunk at index " ++ toString j) := by
  induction chunks generalizing i with
  | nil => simp [firstInvalid] at h
  | cons c rest ih =>
    cases hc : c.content with
    | none =>
      simp [firstInvalid, hc] at h
      exact Or.inl ⟨i, h.symm⟩
    | some s =>
      by_cases hs : pyStrip s = ""
      · simp [firstInvalid, hc, hs] at h
        exact Or.inr ⟨i, h.symm⟩
      · simp [firstInvalid, hc, hs] at h
        exact ih (i + 1) h

/-- C1: in `store`, the vector-index write is attempted only after the
relational commit succeeded; and when the vector-index write fails after a
successful commit, the committed rows stay in place, the vector index is
unchanged, and the reported error differs from every error a total failure
(embedding failure or input validation) reports. -/
theorem c1_store_vector_write_after_commit_partial_failure :
    (∀ (env : StoreEnv) (db : SqlDb) (vs : VectorStore) (documentId : Int)
        (chunks : List ChunkIn),
      (storeChunks env db vs documentId chunks).2.2.2.vectorAddAttempted = true →
      (storeChunks env db vs documentId chunks).2.2.2.sqlCommitted = true) ∧
    (∀ (env : StoreEnv) (db : SqlDb) (vs : VectorStore) (documentId : Int)
        (chunks : List ChunkIn) (embs : List (List ℚ)) (e : String),
      db.pending = [] → chunks ≠ [] → firstInvalid 0 chunks = none →
      env.embed (chunks.map (fun c => c.content.getD "")) = .ok embs →
      env.commitError = none → env.vectorAddError = some e →
      (storeChunks env db vs documentId chunks).1 =
          .error ("Chunk storage failed: Failed to add documents: " ++ e) ∧
        (storeChunks env db vs documentId chunks).2.1 =
          ⟨db.committed ++ mkRows env documentId chunks embs, []⟩ ∧
        (storeChunks env db vs documentId chunks).2.2.1 = vs ∧
        (storeChunks env db vs documentId chunks).2.2.2.sqlCommitted = true ∧
        (∀ e2, "Chunk storage failed: Failed to add documents: " ++ e ≠
          "Chunk storage failed: Embedding generation failed: " ++ e2) ∧
        (∀ (chunks2 : List ChunkIn) (msg : String),
          firstInvalid 0 chunks2 = some msg →
          "Chunk storage failed: Failed to add documents: " ++ e ≠ msg)) := by
  constructor
  · intro env db vs documentId chunks
    cases hq : chunks.isEmpty
    · cases hfi : firstInvalid 0 chunks
      · cases hembed : env.embed (chunks.map (fun c => c.content.getD ""))
        · simp [storeChunks, hq, hfi, hembed]
        · cases hcommit : env.commitError
          · cases hvec : env.vectorAddError <;>
              simp [storeChunks, hq, hfi, hembed, hcommit, hvec]
          · simp [storeChunks, hq, hfi, hembed, hcommit]
      · simp [storeChunks, hq, hfi]
    · simp [storeChunks, hq]
  · intro env db vs documentId chunks embs e hpend hne hval hembed hcommit hvec
    have hemp : chunks.isEmpty = false := by
      simpa [List.isEmpty_eq_false] using hne
    have hout : storeChunks env db vs documentId chunks =
        (.error ("Chunk storage failed: Failed to add documents: " ++ e),
          ⟨db.committed ++ mkRows env documentId chunks embs, []⟩, vs,
          ⟨[chunks.map (fun c => c.content.getD "")], (chunks.zip embs).length,
            true, true⟩) := by
      simp [storeChunks, hemp, hval, hembed, hcommit, hvec, SqlDb.commitNow,
        SqlDb.rollback, hpend]
    refine ⟨by rw [hout], by rw [hout], by rw [hout], by rw [hout], ?_, ?_⟩
    · intro e2
      exact string_append_ne_of_take_ne _ _ _ _ 23 (by decide) (by decide) (by decide)
    · intro chunks2 msg hmsg
      rcases firstInvalid_msg_shape chunks2 0 msg hmsg with ⟨j, hj⟩ | ⟨j, hj⟩
      · rw [hj, String.append_assoc]
        exact string_append_ne_of_take_ne _ _ _ _ 1 (by decide) (by decide) (by decide)
      · rw [hj]
        exact string_append_ne_of_take_ne _ _ _ _ 1 (by decide) (by decide) (by decide)

/-- Witness for C1 at a concrete input: a one-chunk store against an index
whose `add` fails leaves the committed row in place, reports the
vector-write error, and that error differs from the embedding-failure and
validation errors. -/
theorem c1_store_vector_write_after_commit_partial_failure_witness :
    ((storeChunks envVecAddFail dbEmpty [] 7 chunksOneOk).2.2.2.sqlCommitted = true) ∧
      ((storeChunks envVecAddFail dbEmpty [] 7 chunksOneOk).1 =
        .error ("Chunk storage failed: Failed to add documents: " ++ "index down")) ∧
      ((storeChunks envVecAddFail dbEmpty [] 7 chunksOneOk).2.1 =
        ⟨dbEmpty.committed ++ mkRows envVecAddFail 7 chunksOneOk [[]], []⟩) ∧
      ((storeChunks envVecAddFail dbEmpty [] 7 chunksOneOk).2.2.1 = []) := by
  have h := c1_store_vector_write_after_commit_partial_failure
  have hb := h.2 envVecAddFail dbEmpty [] 7 chunksOneOk [[]] "index down"
    rfl (by decide) (by decide) rfl rfl rfl
  have ha := h.1 envVecAddFail dbEmpty [] 7 chunksOneOk
  exact ⟨hb.2.2.2.1, hb.1, hb.2.1, hb.2.2.1⟩

/-- C4: after a successful `delete(documentId)` both the relational rows and
the vector-index entries of the document are gone, the vector-index delete
happens before the relational delete/commit, and with no chunk rows the
operation is a no-op success that touches neither store.  The vector-count
part assumes the § 3 invariant that every vector entry of the document is
referenced by one of its rows (no orphan vectors). -/
theorem c4_delete_clears_both_stores (env : StoreEnv) (db : SqlDb)
    (vs : VectorStore) (documentId : Int)
    (_hpend : db.pending = []) :
    (env.vectorDeleteError = none → env.commitError = none →
      (∀ v ∈ vs, v.metadata.document_id = documentId →
        v.id ∈ (db.view.filter (fun r => r.document_id == documentId)).map
          (·.vector_id)) →
      (deleteChunks env db vs documentId).1 = .ok () ∧
        ((deleteChunks env db vs documentId).2.1.view.filter
          (fun r => r.document_id == documentId)) = [] ∧
        ((deleteChunks env db vs documentId).2.2.1.filter
          (fun v => v.metadata.document_id == documentId)) = [] ∧
        (db.view.filter (fun r => r.document_id == documentId) ≠ [] →
          (deleteChunks env db vs documentId).2.2.2 =
            [.vectorDelete ((db.view.filter
                (fun r => r.document_id == documentId)).map (·.vector_id)),
              .sqlDelete documentId, .sqlCommit])) ∧
      (db.view.filter (fun r => r.document_id == documentId) = [] →
        deleteChunks env db vs documentId = (.ok (), db, vs, [])) := by
  by_cases hrows : db.view.filter (fun r => r.document_id == documentId) = []
  · have hnoop : deleteChunks env db vs documentId = (.ok (), db, vs, []) := by
      simp [deleteChunks, hrows]
    refine ⟨?_, fun _ => hnoop⟩
    intro _ _ horphan
    refine ⟨by rw [hnoop], by rw [hnoop]; exact hrows, ?_, fun hne => absurd hrows hne⟩
    rw [hnoop]
    rw [List.filter_eq_nil_iff]
    intro v hv hdoc
    have := horphan v hv (by simpa using hdoc)
    rw [hrows] at this
    simp at this
  · refine ⟨?_, fun h => absurd h hrows⟩
    intro hvd hc horphan
    have hemp : (db.view.filter (fun r => r.document_id == documentId)).isEmpty
        = false := by
      simpa [List.isEmpty_eq_false] using hrows
    have hout : deleteChunks env db vs documentId =
        (.ok (),
          ⟨db.view.filter (fun r => !(r.document_id == documentId)), []⟩,
          vs.filter (fun v =>
            !(((db.view.filter (fun r => r.document_id == documentId)).map
              (·.vector_id)).contains v.id)),
          [.vectorDelete ((db.view.filter
              (fun r => r.document_id == documentId)).map (·.vector_id)),
            .sqlDelete documentId, .sqlCommit]) := by
      simp [deleteChunks, hemp, hvd, hc]
    refine ⟨by rw [hout], ?_, ?_, fun _ => by rw [hout]⟩
    · rw [hout]
      simp only [SqlDb.view, List.append_nil]
      rw [List.filter_eq_nil_iff]
      intro r hr
      have := (List.mem_filter.mp hr).2
      simp_all
    · rw [hout]
      rw [List.filter_eq_nil_iff]
      intro v hv hdoc
      have hmem := List.mem_filter.mp hv
      have hid := horphan v hmem.1 (by simpa using hdoc)
      have : (((db.view.filter (fun r => r.document_id == documentId)).map
          (·.vector_id)).contains v.id) = true := by
        simpa [List.contains, List.elem_iff] using hid
      rw [this] at hmem
      simp at hmem

/-- Witness for C4 at a concrete input: deleting document 7 from a
one-row/one-vector state empties both stores with the vector delete first,
and deleting from the emptied state is a no-op. -/
theorem c4_delete_clears_both_stores_witness :
    ((deleteChunks envAllOk dbOneDoc vsOneDoc 7).1 = .ok () ∧
      ((deleteChunks envAllOk dbOneDoc vsOneDoc 7).2.1.view.filter
        (fun r => r.document_id == 7)) = [] ∧
      ((deleteChunks envAllOk dbOneDoc vsOneDoc 7).2.2.1.filter
        (fun v => v.metadata.document_id == 7)) = [] ∧
      (dbOneDoc.view.filter (fun r => r.document_id == 7) ≠ [] →
        (deleteChunks envAllOk dbOneDoc vsOneDoc 7).2.2.2 =
          [.vectorDelete ((dbOneDoc.view.filter
              (fun r => r.document_id == 7)).map (·.vector_id)),
            .sqlDelete 7, .sqlCommit])) ∧
      (deleteChunks envAllOk dbEmpty [] 7 = (.ok (), dbEmpty, [], [])) :=
  ⟨(c4_delete_clears_both_stores envAllOk dbOneDoc vsOneDoc 7 rfl).1
      rfl rfl (by decide),
    (c4_delete_clears_both_stores envAllOk dbEmpty [] 7 rfl).2 (by decide)⟩

theorem pyFind_start_le {text pat : String} {start i : Nat}
    (h : pyFind text pat start = some i) : start ≤ i := by
  have hmem : i ∈ (List.range (text.length + 1)).filter
      (fun j => decide (start ≤ j) && matchesAt text.data pat.data j) := by
    apply List.mem_of_mem_head?
    rw [pyFind] at h
    rw [h]
    rfl
  have hp := (List.mem_filter.mp hmem).2
  have := (Bool.and_eq_true _ _).mp hp
  exact of_decide_eq_true this.1

theorem assignChunkPositions_head_start_ge (text : String)
    (chunks : List String) (i curPos : Nat) :
    ∀ a ∈ (assignChunkPositions text chunks i curPos).head?, curPos ≤ a.start_char := by
  cases chunks with
  | nil => simp [assignChunkPositions]
  | cons c rest =>
    intro a ha
    simp only [assignChunkPositions, List.head?_cons, Option.mem_def,
      Option.some.injEq] at ha
    rw [← ha]
    cases hf : pyFind text c curPos with
    | none => simp [hf]
    | some j => simpa [hf] using pyFind_start_le hf

theorem assignChunkPositions_chain (text : String) :
    ∀ (chunks : List String) (i curPos : Nat),
    List.Chain' (fun a b => a.end_char ≤ b.start_char)
      (assignChunkPositions text chunks i curPos) := by
  intro chunks
  induction chunks with
  | nil => intro i curPos; simp [assignChunkPositions]
  | cons c rest ih =>
    intro i curPos
    rw [assignChunkPositions]
    rw [List.chain'_cons']
    refine ⟨?_, ih (i + 1) _⟩
    intro b hb
    exact assignChunkPositions_head_start_ge text rest (i + 1) _ b hb

theorem assignChunkPositions_end_eq (text : String) :
    ∀ (chunks : List String) (i curPos : Nat),
    ∀ a ∈ assignChunkPositions text chunks i curPos,
      a.end_char = a.start_char + a.content.length := by
  intro chunks
  induction chunks with
  | nil => intro i curPos a ha; simp [assignChunkPositions] at ha
  | cons c rest ih =>
    intro i curPos a ha
    rw [assignChunkPositions] at ha
    rcases List.mem_cons.mp ha with h | h
    · rw [h]
    · exact ih (i + 1) _ a h

theorem pyFind_zero_of_matchesAt (text pat : String)
    (h : matchesAt text.data pat.data 0 = true) :
    pyFind text pat 0 = some 0 := by
  rw [pyFind, List.range_succ_eq_map]
  rw [List.filter_cons_of_pos (by simp [h])]
  rfl

/-- C8 counterexample: on the text `"aaaa bbbb cccc"` with the two genuinely
overlapping windows `"aaaa bbbb"` and `"bbbb cccc"` (overlap `"bbbb"`), the
assigned offsets are `(0, 9)` and `(9, 18)`: the second chunk's `start_char`
equals — is not strictly less than — the first chunk's `end_char`, because
the forward scan starts at the previous end and falls back to it. -/
theorem c8_overlap_offsets_counterexample :
    createChunks "aaaa bbbb cccc" ["aaaa bbbb", "bbbb cccc"] =
      .ok [⟨0, "aaaa bbbb", 0, 9, 2⟩, ⟨1, "bbbb cccc", 9, 18, 2⟩] ∧
    ¬ ((9 : Nat) < 9) := by
  exact ⟨by rfl, by decide⟩

/-- C8 (amended): for a non-whitespace input text, `_create_chunks` assigns
each window offsets by scanning forward from the previous chunk's *end*
position (falling back to it on a failed search), so each subsequent chunk's
`start_char` is greater than or *equal to* — never less than — the previous
chunk's `end_char`; each `end_char` is `start_char + len(content)`; and the
first chunk starts at the first occurrence of its content, which is offset 0
exactly when the text begins with it. -/
theorem c8_amended_offsets_scan_forward (text : String) (chunks : List String)
    (h : pyStrip text ≠ "") :
    createChunks text chunks = .ok (assignChunkPositions text chunks 0 0) ∧
      List.Chain' (fun a b => a.end_char ≤ b.start_char)
        (assignChunkPositions text chunks 0 0) ∧
      (∀ a ∈ assignChunkPositions text chunks 0 0,
        a.end_char = a.start_char + a.content.length) ∧
      (∀ c rest, chunks = c :: rest →
        (assignChunkPositions text chunks 0 0).head? =
          some ⟨0, c, (pyFind text c 0).getD 0,
            (pyFind text c 0).getD 0 + c.length, c.length / 4⟩) ∧
      (∀ c rest, chunks = c :: rest → matchesAt text.data c.data 0 = true →
        (assignChunkPositions text chunks 0 0).head? =
          some ⟨0, c, 0, c.length, c.length / 4⟩) := by
  refine ⟨by simp [createChunks, h], assignChunkPositions_chain text chunks 0 0,
    assignChunkPositions_end_eq text chunks 0 0, ?_, ?_⟩
  · intro c rest hc
    subst hc
    rfl
  · intro c rest hc hm
    subst hc
    rw [assignChunkPositions]
    simp [pyFind_zero_of_matchesAt text c hm]

/-- Witness for the amended C8 at a concrete input: the overlapping-window
example satisfies the scan-forward offset properties. -/
theorem c8_amended_offsets_scan_forward_witness :
    createChunks "aaaa bbbb cccc" ["aaaa bbbb", "bbbb cccc"] =
      .ok (assignChunkPositions "aaaa bbbb cccc" ["aaaa bbbb", "bbbb cccc"] 0 0) ∧
      List.Chain' (fun a b => a.end_char ≤ b.start_char)
        (assignChunkPositions "aaaa bbbb cccc" ["aaaa bbbb", "bbbb cccc"] 0 0) ∧
      (∀ a ∈ assignChunkPositions "aaaa bbbb cccc" ["aaaa bbbb", "bbbb cccc"] 0 0,
        a.end_char = a.start_char + a.content.length) ∧
      (∀ c rest, ["aaaa bbbb", "bbbb cccc"] = c :: rest →
        (assignChunkPositions "aaaa bbbb cccc" ["aaaa bbbb", "bbbb cccc"] 0 0).head? =
          some ⟨0, c, (pyFind "aaaa bbbb cccc" c 0).getD 0,
            (pyFind "aaaa bbbb cccc" c 0).getD 0 + c.length, c.length / 4⟩) ∧
      (∀ c rest, ["aaaa bbbb", "bbbb cccc"] = c :: rest →
        matchesAt "aaaa bbbb cccc".data c.data 0 = true →
        (assignChunkPositions "aaaa bbbb cccc" ["aaaa bbbb", "bbbb cccc"] 0 0).head? =
          some ⟨0, c, 0, c.length, c.length / 4⟩) :=
  c8_amended_offsets_scan_forward "aaaa bbbb cccc" ["aaaa bbbb", "bbbb cccc"]
    (by decide)

theorem string_length_pos_of_ne_empty {s : String} (h : s ≠ "") :
    s.length > 0 := by
  cases hs : s.data with
  | nil =>
    exact absurd (by cases s with
      | mk d => simp at hs; rw [hs]) h
  | cons a l =>
    have : s.length = s.data.length := rfl
    rw [this, hs]
    simp

/-- C9 counterexample: with no conversation history the optimizer does not
return the question unchanged — it strips surrounding whitespace. -/
theorem c9_optimizer_counterexample :
    optimizeQuery " hi " [] = "hi" ∧ optimizeQuery " hi " [] ≠ " hi " :=
  ⟨by rfl, by decide⟩

/-- C9 (amended): the optimizer returns the question *stripped of surrounding
whitespace* (not unchanged) whenever the question has more than 2 words, or
there is no history, or no user turns occur among the last 3 history
messages (or their joined content is empty); for a question of at most 2
words with a user turn among the last 3 messages, it returns the original
question followed by a space and the first 100 characters of the lowercased
space-joined concatenation of those user turns. -/
theorem c9_amended_optimizer_behavior (query : String) (history : List ChatMsg) :
    (history = [] → optimizeQuery query history = pyStrip query) ∧
      ((pySplitWs query).length > 2 →
        optimizeQuery query history = pyStrip query) ∧
      (recentUserContext history = [] →
        optimizeQuery query history = pyStrip query) ∧
      (recentUserContext history ≠ [] →
        (pySplitWs query).length ≤ 2 →
        pyLower (pyJoin " " (recentUserContext history)) ≠ "" →
        optimizeQuery query history =
          query ++ " " ++
            pySlice (pyLower (pyJoin " " (recentUserContext history))) 100 ∧
        (pySlice (pyLower (pyJoin " " (recentUserContext history))) 100).length
          ≤ 100) := by
  refine ⟨?_, ?_, ?_, ?_⟩
  · intro h; subst h; rfl
  · intro hgt
    have hc : decide ((pySplitWs query).length ≤ 2) = false :=
      decide_eq_false (by omega)
    simp only [optimizeQuery, hc, Bool.false_and, Bool.false_eq_true, if_false]
    split_ifs <;> rfl
  · intro hrc
    simp only [optimizeQuery, hrc, List.isEmpty_nil, if_true]
    split_ifs <;> rfl
  · intro hne hle hterms
    have hl : history.length > 0 := by
      cases history with
      | nil => exact absurd rfl hne
      | cons a l => simp
    have hrcne : (recentUserContext history).isEmpty = false := by
      simpa [List.isEmpty_eq_false] using hne
    have hcond : (decide ((pySplitWs query).length ≤ 2) &&
        decide ((pyLower (pyJoin " " (recentUserContext history))).length > 0))
          = true := by
      rw [Bool.and_eq_true]
      exact ⟨decide_eq_true hle,
        decide_eq_true (string_length_pos_of_ne_empty hterms)⟩
    constructor
    · simp only [optimizeQuery]
      rw [if_pos hl]
      simp only [hrcne, Bool.false_eq_true, if_false, hcond, if_true]
    · have : (pySlice (pyLower (pyJoin " " (recentUserContext history))) 100).length
          = ((pyLower (pyJoin " " (recentUserContext history))).data.take 100).length := rfl
      rw [this, List.length_take]
      exact min_le_left _ _

/-- Witness for the amended C9 at concrete inputs: a 3-word question with
history is stripped, and a 1-word question with one user turn in the last
three messages gets the lowercased user context appended. -/
theorem c9_amended_optimizer_behavior_witness :
    ((pySplitWs " what is rag ").length > 2 →
      optimizeQuery " what is rag " [⟨"user", "Tell me about RAG"⟩] =
        pyStrip " what is rag ") ∧
      (recentUserContext [⟨"user", "Tell me about RAG"⟩] ≠ [] →
        (pySplitWs "More").length ≤ 2 →
        pyLower (pyJoin " " (recentUserContext [⟨"user", "Tell me about RAG"⟩])) ≠ "" →
        optimizeQuery "More" [⟨"user", "Tell me about RAG"⟩] =
          "More" ++ " " ++
            pySlice (pyLower (pyJoin " "
              (recentUserContext [⟨"user", "Tell me about RAG"⟩]))) 100 ∧
        (pySlice (pyLower (pyJoin " "
          (recentUserContext [⟨"user", "Tell me about RAG"⟩]))) 100).length ≤ 100) :=
  ⟨(c9_amended_optimizer_behavior " what is rag " [⟨"user", "Tell me about RAG"⟩]).2.1,
    (c9_amended_optimizer_behavior "More" [⟨"user", "Tell me about RAG"⟩]).2.2.2⟩

theorem le_enhancedScore (query : String) (boostRecent : Bool)
    (boostDocType : Option String) (r : RankCandidate)
    (h : 0 ≤ r.similarity.getD 0) :
    r.similarity.getD 0 ≤ enhancedScore query boostRecent boostDocType r := by
  rcases r with ⟨cnt, sim, ⟨ca, dt, ti⟩, ci, di, cx, es⟩
  cases sim <;> cases boostDocType <;> cases ti <;>
    simp only [enhancedScore, Option.getD_none, Option.getD_some] at h ⊢ <;>
    split_ifs <;> nlinarith [h]

/-- C5 counterexample: for a candidate with negative raw similarity (cosine
distance above 1) carrying a `created_at`, the recency boost *lowers* the
score: `enhanced_score = (-1) × 1.1 < -1 = similarity`, so
`enhancedScore ≥ similarity` does not hold for every candidate list. -/
theorem c5_rank_monotonicity_counterexample :
    rankResults [⟨"d", some (-1), ⟨some "2024", none, none⟩, none, none, none,
        none⟩] "q" true none =
      [⟨"d", some (-1), ⟨some "2024", none, none⟩, none, none, none,
        some ((-1) * (11/10))⟩] ∧
    ¬ ((((⟨"d", some (-1), ⟨some "2024", none, none⟩, none, none, none,
        none⟩ : RankCandidate)).similarity.getD 0) ≤ (-1) * (11/10)) := by
  constructor
  · rw [rankResults]
    simp [annotateResult, enhancedScore, List.mergeSort_singleton]
  · simp only [Option.getD]
    norm_num

/-- C5 (amended): for every candidate list in which every candidate's raw
similarity is nonnegative, ranking annotates and reorders only — the output
is a permutation of the annotated input, sorted descending by
`enhanced_score` — and every candidate's `enhanced_score` is at least its
`similarity`.  (For negative similarities the multiplicative boosts lower
the score, see the counterexample.) -/
theorem c5_amended_rank_monotone_permutation (results : List RankCandidate)
    (query : String) (boostRecent : Bool) (boostDocType : Option String)
    (h : ∀ r ∈ results, 0 ≤ r.similarity.getD 0) :
    (rankResults results query boostRecent boostDocType).Perm
        (results.map (annotateResult query boostRecent boostDocType)) ∧
      List.Pairwise (fun a b =>
          b.enhanced_score.getD 0 ≤ a.enhanced_score.getD 0)
        (rankResults results query boostRecent boostDocType) ∧
      ∀ r ∈ rankResults results query boostRecent boostDocType,
        r.similarity.getD 0 ≤ r.enhanced_score.getD 0 := by
  have htrans : ∀ a b c : RankCandidate,
      rankLe a b = true → rankLe b c = true → rankLe a c = true := by
    intro a b c hab hbc
    rw [rankLe, decide_eq_true_iff] at hab hbc ⊢
    exact le_trans hbc hab
  have htotal : ∀ a b : RankCandidate, (rankLe a b || rankLe b a) = true := by
    intro a b
    rw [Bool.or_eq_true, rankLe, rankLe, decide_eq_true_iff, decide_eq_true_iff]
    exact le_total _ _
  by_cases hemp : results.isEmpty
  · have : results = [] := by simpa [List.isEmpty_iff] using hemp
    subst this
    refine ⟨by simp [rankResults], by simp [rankResults], by simp [rankResults]⟩
  · have hperm : (rankResults results query boostRecent boostDocType).Perm
        (results.map (annotateResult query boostRecent boostDocType)) := by
      rw [rankResults, if_neg (by simp [hemp])]
      exact List.mergeSort_perm _ _
    refine ⟨hperm, ?_, ?_⟩
    · have hsorted := List.sorted_mergeSort htrans htotal
        (results.map (annotateResult query boostRecent boostDocType))
      rw [rankResults, if_neg (by simp [hemp])]
      exact hsorted.imp (fun hab => by
        rwa [rankLe, decide_eq_true_iff] at hab)
    · intro r hr
      have hr2 : r ∈ results.map (annotateResult query boostRecent boostDocType) :=
        hperm.mem_iff.mp hr
      obtain ⟨r0, hr0, hre⟩ := List.mem_map.mp hr2
      rw [← hre]
      have hsim : (annotateResult query boostRecent boostDocType r0).similarity
          = r0.similarity := rfl
      have hes : (annotateResult query boostRecent boostDocType r0).enhanced_score
          = some (enhancedScore query boostRecent boostDocType r0) := rfl
      rw [hsim, hes, Option.getD_some]
      exact le_enhancedScore query boostRecent boostDocType r0 (h r0 hr0)

/-- Witness for the amended C5 at a concrete input: a one-candidate list with
nonnegative similarity is annotated, trivially sorted, and monotone. -/
theorem c5_amended_rank_monotone_permutation_witness :
    (rankResults [⟨"d", some 1, ⟨none, none, some "Doc"⟩, none, none, none,
        none⟩] "q" true none).Perm
        ([⟨"d", some 1, ⟨none, none, some "Doc"⟩, none, none, none,
          none⟩].map (annotateResult "q" true none)) ∧
      List.Pairwise (fun a b =>
          b.enhanced_score.getD 0 ≤ a.enhanced_score.getD 0)
        (rankResults [⟨"d", some 1, ⟨none, none, some "Doc"⟩, none, none, none,
          none⟩] "q" true none) ∧
      ∀ r ∈ rankResults [⟨"d", some 1, ⟨none, none, some "Doc"⟩, none, none,
          none, none⟩] "q" true none,
        r.similarity.getD 0 ≤ r.enhanced_score.getD 0 :=
  c5_amended_rank_monotone_permutation
    [⟨"d", some 1, ⟨none, none, some "Doc"⟩, none, none, none, none⟩]
    "q" true none
    (by intro r hr; rw [List.mem_singleton] at hr; subst hr; norm_num)

theorem dictInsert_find (es : List (String × QueryResult × ℚ)) (k : String)
    (r : QueryResult) (now : ℚ) :
    (dictInsert es k r now).find? (fun e => e.1 == k) = some (k, r, now) := by
  rw [dictInsert]
  by_cases hany : es.any (fun e => e.1 == k) = true
  · rw [if_pos hany]
    induction es with
    | nil => simp at hany
    | cons e tl ih =>
      by_cases he : (e.1 == k) = true
      · simp [List.find?, he]
      · have htl : tl.any (fun e => e.1 == k) = true := by
          rw [List.any_cons] at hany
          simpa [he] using hany
        simp only [List.map_cons, List.find?, he, if_false]
        simpa [he] using ih htl
  · rw [if_neg hany]
    induction es with
    | nil => simp [List.find?]
    | cons e tl ih =>
      rw [List.any_cons] at hany
      have he : (e.1 == k) = false := by
        by_cases h : (e.1 == k) = true
        · exact absurd (by simp [h]) hany
        · simpa using h
      have htl : ¬ tl.any (fun e => e.1 == k) = true := by
        intro h
        exact hany (by simp [h])
      simp only [List.cons_append, List.find?, he]
      exact ih htl

theorem cacheSet_ttl (c : Cache) (q : String) (d : Option Int) (t : ℚ)
    (r : QueryResult) (now : ℚ) : (cacheSet c q d t r now).ttl = c.ttl := rfl

theorem cacheGet_snd_ttl (c : Cache) (q : String) (d : Option Int)
    (t now : ℚ) : (cacheGet c q d t now).2.ttl = c.ttl := by
  rw [cacheGet]
  cases hf : c.entries.find? (fun e => e.1 == cacheKey q d t) with
  | none => rfl
  | some e =>
    by_cases h : now - e.2.2 < c.ttl
    · simp [h]
    · simp [h]

theorem cacheGet_after_set (c : Cache) (q : String) (d : Option Int)
    (t : ℚ) (r : QueryResult) (now nowLater : ℚ)
    (h : nowLater - now < c.ttl) :
    (cacheGet (cacheSet c q d t r now) q d t nowLater).1 = some r := by
  rw [cacheGet]
  have hfind : (cacheSet c q d t r now).entries.find?
      (fun e => e.1 == cacheKey q d t) = some (cacheKey q d t, r, now) :=
    dictInsert_find _ _ _ _
  rw [hfind]
  simp only [cacheSet_ttl]
  rw [if_pos h]

theorem ragQuery_success_shape (env : RagEnv) (cache : Cache)
    (question : String) (documentId : Option Int) (simThreshold : ℚ)
    (opt rank : Bool) (t1s t1e : ℚ)
    (hmiss : (cacheGet cache question documentId simThreshold t1s).1 = none)
    (hllm : (ragQuery env cache question documentId [] simThreshold opt rank
      true t1s t1e).llmCalled = true) :
    ∃ docs, env.retrieve (if opt then optimizeQuery question [] else question)
        documentId simThreshold = .ok docs ∧ docs.isEmpty = false ∧
      ragQuery env cache question documentId [] simThreshold opt rank true
          t1s t1e =
        ⟨.ok (ragSuccessResult env question []
            (if opt then optimizeQuery question [] else question) docs rank
            t1s t1e),
          cacheSet (cacheGet cache question documentId simThreshold t1s).2
            question documentId simThreshold
            { ragSuccessResult env question []
                (if opt then optimizeQuery question [] else question) docs rank
                t1s t1e with
              processing_time := none, from_cache := none } t1e,
          true⟩ := by
  cases hret : env.retrieve (if opt then optimizeQuery question [] else question)
      documentId simThreshold with
  | error e =>
    simp [ragQuery, hmiss, hret] at hllm
  | ok docs =>
    cases hemp : docs.isEmpty with
    | true =>
      simp [ragQuery, hmiss, hret, hemp] at hllm
    | false =>
      refine ⟨docs, rfl, hemp, ?_⟩
      simp [ragQuery, hmiss, hret, hemp]

/-- C6: a query with non-empty conversation history neither reads from nor
writes to the query cache (the cache is returned untouched and the outcome
does not depend on the cache contents); and a second identical history-free
query issued within the TTL window after a first cache-missing successful
query returns the first query's cached payload, identical to the first
response except for the two volatile fields `processing_time` and
`from_cache`. -/
theorem c6_cache_bypass_and_idempotence :
    (∀ (env : RagEnv) (cache cache2 : Cache) (question : String)
        (documentId : Option Int) (chatHistory : List ChatMsg)
        (simThreshold : ℚ) (opt rank useCache : Bool) (t1 t2 : ℚ),
      chatHistory ≠ [] →
        (ragQuery env cache question documentId chatHistory simThreshold opt
          rank useCache t1 t2).cache = cache ∧
        (ragQuery env cache question documentId chatHistory simThreshold opt
            rank useCache t1 t2).result =
          (ragQuery env cache2 question documentId chatHistory simThreshold opt
            rank useCache t1 t2).result) ∧
    (∀ (env : RagEnv) (cache : Cache) (question : String)
        (documentId : Option Int) (simThreshold : ℚ) (opt rank : Bool)
        (t1s t1e t2s t2e : ℚ) (r1 : QueryResult),
      (cacheGet cache question documentId simThreshold t1s).1 = none →
      (ragQuery env cache question documentId [] simThreshold opt rank true
        t1s t1e).result = .ok r1 →
      (ragQuery env cache question documentId [] simThreshold opt rank true
        t1s t1e).llmCalled = true →
      t2s - t1e < cache.ttl →
      (ragQuery env
          (ragQuery env cache question documentId [] simThreshold opt rank true
            t1s t1e).cache
          question documentId [] simThreshold opt rank true t2s t2e).result =
        .ok { r1 with
                processing_time := some (t2e - t2s),
                from_cache := some true }) := by
  constructor
  · intro env cache cache2 question documentId chatHistory simThreshold opt
      rank useCache t1 t2 h
    have hf : chatHistory.isEmpty = false := by
      simpa [List.isEmpty_eq_false] using h
    constructor
    · cases hret : env.retrieve
          (if opt then optimizeQuery question chatHistory else question)
          documentId simThreshold with
      | error e => simp [ragQuery, hf, hret]
      | ok docs =>
        cases hemp : docs.isEmpty with
        | true => simp [ragQuery, hf, hret, hemp]
        | false => simp [ragQuery, hf, hret, hemp]
    · cases hret : env.retrieve
          (if opt then optimizeQuery question chatHistory else question)
          documentId simThreshold with
      | error e => simp [ragQuery, hf, hret]
      | ok docs =>
        cases hemp : docs.isEmpty with
        | true => simp [ragQuery, hf, hret, hemp]
        | false => simp [ragQuery, hf, hret, hemp]
  · intro env cache question documentId simThreshold opt rank t1s t1e t2s t2e
      r1 hmiss hok hllm httl
    obtain ⟨docs, hret, hemp, hshape⟩ := ragQuery_success_shape env cache
      question documentId simThreshold opt rank t1s t1e hmiss hllm
    have hr1 : r1 = ragSuccessResult env question []
        (if opt then optimizeQuery question [] else question) docs rank
        t1s t1e := by
      rw [hshape] at hok
      exact (Except.ok.injEq _ _).mp hok.symm
    have hcache1 : (ragQuery env cache question documentId [] simThreshold opt
        rank true t1s t1e).cache =
      cacheSet (cacheGet cache question documentId simThreshold t1s).2
        question documentId simThreshold
        { ragSuccessResult env question []
            (if opt then optimizeQuery question [] else question) docs rank
            t1s t1e with
          processing_time := none, from_cache := none } t1e := by
      rw [hshape]
    have hhit : (cacheGet
        (cacheSet (cacheGet cache question documentId simThreshold t1s).2
          question documentId simThreshold
          { ragSuccessResult env question []
              (if opt then optimizeQuery question [] else question) docs rank
              t1s t1e with
            processing_time := none, from_cache := none } t1e)
        question documentId simThreshold t2s).1 =
        some { ragSuccessResult env question []
            (if opt then optimizeQuery question [] else question) docs rank
            t1s t1e with
          processing_time := none, from_cache := none } := by
      apply cacheGet_after_set
      rw [cacheGet_snd_ttl]
      exact httl
    rw [hcache1]
    rw [ragQuery]
    simp only [List.isEmpty_nil, Bool.and_true, if_true, hhit]
    rw [hr1]

/-- Witness for C6 at concrete inputs: a query with one history turn leaves a
cache untouched and its outcome ignores the cache; and the second of two
identical history-free queries, 1 time unit apart inside the TTL of 30,
returns the first response with only `processing_time` and `from_cache`
changed. -/
theorem c6_cache_bypass_and_idempotence_witness :
    ((ragQuery envHit cacheEmpty "q" none [⟨"user", "u"⟩] 0 false false true
        0 1).cache = cacheEmpty ∧
      (ragQuery envHit cacheEmpty "q" none [⟨"user", "u"⟩] 0 false false true
          0 1).result =
        (ragQuery envHit
          (cacheSet cacheEmpty "other" none 0 (noResultsResult "x" none 0 0) 0)
          "q" none [⟨"user", "u"⟩] 0 false false true 0 1).result) ∧
      (ragQuery envHit
          (ragQuery envHit cacheEmpty "q" none [] 0 false false true 0 1).cache
          "q" none [] 0 false false true 2 3).result =
        .ok { ragSuccessResult envHit "q" [] "q" [docW] false 0 1 with
                processing_time := some (3 - 2), from_cache := some true } :=
  ⟨c6_cache_bypass_and_idempotence.1 envHit cacheEmpty
      (cacheSet cacheEmpty "other" none 0 (noResultsResult "x" none 0 0) 0)
      "q" none [⟨"user", "u"⟩] 0 false false true 0 1 (by simp),
    c6_cache_bypass_and_idempotence.2 envHit cacheEmpty "q" none 0 false false
      0 1 2 3 (ragSuccessResult envHit "q" [] "q" [docW] false 0 1)
      rfl rfl rfl (by norm_num [cacheEmpty])⟩

theorem getQuerySuggestions_three_ne_nil (documentId : Option Int) :
    getQuerySuggestions documentId 3 ≠ [] := by
  cases documentId with
  | none => simp [getQuerySuggestions]
  | some d =>
    by_cases hd : d ≠ 0
    · simp [getQuerySuggestions, hd]
    · simp [getQuerySuggestions, hd]

/-- C7: whenever retrieval returns zero chunks above the threshold, `query`
returns (without raising) the structured no-relevant-content response: the
fixed message, confidence 0.0, no sources, a suggestions list, non-empty
alternative queries and non-empty tips — and the LLM is never invoked. -/
theorem c7_no_results_structured_no_llm (env : RagEnv) (cache : Cache)
    (question : String) (documentId : Option Int)
    (chatHistory : List ChatMsg) (simThreshold : ℚ)
    (opt rank useCache : Bool) (t1 t2 : ℚ)
    (hmiss : (useCache && chatHistory.isEmpty) = true →
      (cacheGet cache question documentId simThreshold t1).1 = none)
    (hret : env.retrieve
        (if opt then optimizeQuery question chatHistory else question)
        documentId simThreshold = .ok []) :
    (ragQuery env cache question documentId chatHistory simThreshold opt rank
        useCache t1 t2).result =
      .ok (noResultsResult question documentId t1 t2) ∧
    (ragQuery env cache question documentId chatHistory simThreshold opt rank
        useCache t1 t2).llmCalled = false ∧
    (noResultsResult question documentId t1 t2).answer =
      "I couldn't find relevant information for your query." ∧
    (noResultsResult question documentId t1 t2).confidence = 0 ∧
    (noResultsResult question documentId t1 t2).sources = [] ∧
    (noResultsResult question documentId t1 t2).suggestions =
      some ((handleNoResults question documentId).suggestions) ∧
    (noResultsResult question documentId t1 t2).alternative_queries =
      some (getQuerySuggestions documentId 3) ∧
    getQuerySuggestions documentId 3 ≠ [] ∧
    (noResultsResult question documentId t1 t2).tips ≠ some [] := by
  have hbranch : (ragQuery env cache question documentId chatHistory
        simThreshold opt rank useCache t1 t2).result =
          .ok (noResultsResult question documentId t1 t2) ∧
      (ragQuery env cache question documentId chatHistory simThreshold opt rank
        useCache t1 t2).llmCalled = false := by
    cases hcc : (useCache && chatHistory.isEmpty) with
    | true =>
      constructor <;> simp [ragQuery, hcc, hmiss hcc, hret]
    | false =>
      constructor <;> simp [ragQuery, hcc, hret]
  refine ⟨hbranch.1, hbranch.2, rfl, rfl, rfl, rfl, rfl,
    getQuerySuggestions_three_ne_nil documentId, by simp [noResultsResult, handleNoResults]⟩

/-- Witness for C7 at a concrete input: a populated-in-principle environment
whose retriever returns nothing for the query produces the structured
no-results response without calling the LLM. -/
theorem c7_no_results_structured_no_llm_witness :
    (ragQuery envNoHits cacheEmpty "no matching content whatsoever xyzzy123"
        none [] (9/10) true true true 0 1).result =
      .ok (noResultsResult "no matching content whatsoever xyzzy123" none 0 1) ∧
    (ragQuery envNoHits cacheEmpty "no matching content whatsoever xyzzy123"
        none [] (9/10) true true true 0 1).llmCalled = false ∧
    (noResultsResult "no matching content whatsoever xyzzy123" none 0 1).answer =
      "I couldn't find relevant information for your query." ∧
    (noResultsResult "no matching content whatsoever xyzzy123" none 0 1).confidence = 0 ∧
    (noResultsResult "no matching content whatsoever xyzzy123" none 0 1).sources = [] ∧
    (noResultsResult "no matching content whatsoever xyzzy123" none 0 1).suggestions =
      some ((handleNoResults "no matching content whatsoever xyzzy123" none).suggestions) ∧
    (noResultsResult "no matching content whatsoever xyzzy123" none 0 1).alternative_queries =
      some (getQuerySuggestions none 3) ∧
    getQuerySuggestions none 3 ≠ [] ∧
    (noResultsResult "no matching content whatsoever xyzzy123" none 0 1).tips ≠ some [] :=
  c7_no_results_structured_no_llm envNoHits cacheEmpty
    "no matching content whatsoever xyzzy123" none [] (9/10) true true true 0 1
    (fun _ => rfl) rfl
